import Mathlib

/-
  Verification of the simple-unix-shell command interpreter (src/myshell.c).

  The development shallowly embeds the shell's line handling and dispatch
  logic, together with a small model of the operating-system primitives the
  built-ins call (chdir, getcwd, mkdir, rmdir, unlink, open/read, opendir,
  stat).  Strings are modelled as lists of characters, file contents as
  lists of bytes (Nat), and the filesystem pieces each built-in touches are
  modelled explicitly.
-/

namespace MyShell

/-- C `isspace` on the characters that can occur in an input line:
space, tab, newline, vertical tab, form feed, carriage return. -/
def isCWhitespace (c : Char) : Bool :=
  c == ' ' || c == '\t' || c == '\n' || c == '\x0b' || c == '\x0c' || c == '\r'

/-- Literal-character matching of a scanf format against the head of the
input: every character of `key` must match the input exactly, in order
(scanf literal directives do not skip whitespace). -/
def matchesLiteral : List Char → List Char → Bool
  | [], _ => true
  | _ :: _, [] => false
  | k :: ks, c :: cs => k == c && matchesLiteral ks cs

/-- Model of `sscanf(line, "<key> %s", out) == 1`.  The literal `key` must
match the start of the line exactly; the blank in the format consumes zero
or more whitespace characters; `%s` then reads a maximal nonempty run of
non-whitespace characters.  Returns the token read, or `none` when the
conversion count is not 1 (literal mismatch, or no token left). -/
def scanKeyArg (key line : List Char) : Option (List Char) :=
  if matchesLiteral key line then
    let tok := ((line.drop key.length).dropWhile isCWhitespace).takeWhile
      (fun c => !isCWhitespace c)
    if tok = [] then none else some tok
  else none

/-- Value of the line buffer after `strip_trailing_whitespace`: every
trailing whitespace character is overwritten with NUL, so the string value
becomes the longest whitespace-free-tailed head of the input.  (The
source's scan runs one cell past the last stripped index; `stripReads`
below records exactly which indices it touches.) -/
def stripModel (s : List Char) : List Char :=
  (s.reverse.dropWhile isCWhitespace).reverse

/-- Number of trailing whitespace characters of a string. -/
def trailingWhitespaceCount (s : List Char) : Nat :=
  (s.reverse.takeWhile isCWhitespace).length

/-- The indices read by the loop of `strip_trailing_whitespace`, in order:
it starts at `strnlen(string)-1` and keeps decrementing while it sees
whitespace, so it also reads the first index (from the top) holding a
non-whitespace character — or index `-1`, before the buffer, when the
whole string is whitespace (also when it is empty). -/
def stripReads (s : List Char) : List Int :=
  (List.range (trailingWhitespaceCount s + 1)).map
    (fun j => (s.length : Int) - 1 - j)

/-- `bzero(filename, MAX_FILENAME_LENGTH)`: whatever the argument buffer
held, its string value afterwards is the empty string. -/
def bzeroBuf (_stale : List Char) : List Char := []

/-- The built-in selected by one dispatch of an input line, together with
the argument passed to it.  `notFound` is the fallthrough of
`execute_command`; `nothing` is its silent return on an empty line. -/
inductive Action where
  | cd (arg : List Char)
  | exitShell
  | cat (f : List Char)
  | stat (f : List Char)
  | mkdir (d : List Char)
  | rmdir (d : List Char)
  | rm (f : List Char)
  | ls (d : List Char)
  | pwd
  | notFound (line : List Char)
  | nothing
  deriving DecidableEq, Repr

/-- `execute_command(buffer)` from the source: tries the scanf patterns
`cat %s`, `stat %s`, `mkdir %s`, `rmdir %s`, `rm %s`, `ls %s` in order,
then bare `ls` (where the argument buffer `fname`, if still empty,
defaults to `.`), then bare `pwd`, then the not-found error for a
non-empty line. -/
def execute_command (fname line : List Char) : Action :=
  match scanKeyArg ("cat".data) line with
  | some t => Action.cat t
  | none =>
  match scanKeyArg ("stat".data) line with
  | some t => Action.stat t
  | none =>
  match scanKeyArg ("mkdir".data) line with
  | some t => Action.mkdir t
  | none =>
  match scanKeyArg ("rmdir".data) line with
  | some t => Action.rmdir t
  | none =>
  match scanKeyArg ("rm".data) line with
  | some t => Action.rm t
  | none =>
  match scanKeyArg ("ls".data) line with
  | some t => Action.ls t
  | none =>
  if line = "ls".data then Action.ls (if fname = [] then ".".data else fname)
  else if line = "pwd".data then Action.pwd
  else if line ≠ [] then Action.notFound line
  else Action.nothing

/-- The dispatch performed by one iteration of `main` on an already
stripped line, with `fname0` the current value of the `filename` buffer:
`cd %s` or bare `cd` first (bare `cd` passes the buffer through to
`do_cd`), then bare `exit`, then `execute_command`. -/
def mainDispatch (fname0 line : List Char) : Action :=
  match scanKeyArg ("cd".data) line with
  | some t => Action.cd t
  | none =>
    if line = "cd".data then Action.cd fname0
    else if line = "exit".data then Action.exitShell
    else execute_command fname0 line

/-- One iteration of the main loop on a raw input line: strip trailing
whitespace, zero the `filename` buffer (discarding `stale`, its content
from the previous iteration), then dispatch. -/
def mainIteration (stale raw : List Char) : Action :=
  mainDispatch (bzeroBuf stale) (stripModel raw)

/-- One line printed to standard error.  `sys cmd` is the source's
`fprintf(stderr, "<cmd>: %s\n", strerror(errno))`; `notFound line` is the
fallthrough message of `execute_command`. -/
inductive ErrLine where
  | sys (cmd : String)
  | notFound (line : List Char)
  deriving DecidableEq, Repr

/-- The text of a standard-error line; `osReason` is the `strerror(errno)`
string supplied by the operating system. -/
def renderErr (osReason : String) : ErrLine → String
  | ErrLine.sys cmd => cmd ++ ": " ++ osReason
  | ErrLine.notFound line =>
      "myshell: " ++ String.mk line ++ ": No such file or directory"

/-- The process state the `cd`/`pwd` built-ins interact with: the current
working directory, the home directory of the invoking user's password
record (`none` when `getpwuid` finds no record), and the set of directory
paths `chdir` can enter. -/
structure ProcState where
  cwd : String
  home : Option String
  dirs : List String
  deriving DecidableEq, Repr

/-- OS model of `chdir(2)`: succeeds exactly when the target directory
exists, making it the working directory. -/
def chdirOS (st : ProcState) (d : String) : Option ProcState :=
  if d ∈ st.dirs then some { st with cwd := d } else none

/-- OS model of `getcwd(3)`: returns the working directory. -/
def getcwdOS (st : ProcState) : Option String :=
  some st.cwd

/-- The directory `do_cd` passes to `chdir`: the argument itself when
nonempty, otherwise `p->pw_dir` of the password record — which is a null
dereference (`none`) when the record is unresolvable. -/
def cdTarget (st : ProcState) (dirname : String) : Option String :=
  if dirname = "" then st.home else some dirname

/-- `do_cd` from the source.  Result `none` models the undefined behavior
of dereferencing a null `getpwuid` result when the argument is empty and
no password record resolves; otherwise returns the source's return code,
the updated process state, and the error output. -/
def do_cd (st : ProcState) (dirname : String) :
    Option (Int × ProcState × List ErrLine) :=
  match cdTarget st dirname with
  | none => none
  | some t =>
    match chdirOS st t with
    | some st2 => some (0, st2, [])
    | none => some (-1, st, [ErrLine.sys "cd"])

/-- `do_pwd` from the source: prints the working directory when `getcwd`
succeeds, and returns 1 unconditionally. -/
def do_pwd (st : ProcState) : Int × List String :=
  match getcwdOS st with
  | some d => (1, [d])
  | none => (1, [])

/-- A directory path, as the list of its components from the root. -/
abbrev DirPath := List String

/-- The set of directories that exist, each as a component path; the root
`[]` exists implicitly and is never stored. -/
abbrev DirFS := List DirPath

/-- The parent directory of a path. -/
def parentDir (p : DirPath) : DirPath := p.dropLast

/-- Well-formedness of a directory set: every stored path is nonempty and
its parent exists (or is the root). -/
def wfFS (fs : DirFS) : Prop :=
  ∀ p ∈ fs, p ≠ [] ∧ (parentDir p = [] ∨ parentDir p ∈ fs)

/-- OS model of `mkdir(2)`: succeeds exactly when the path is nonempty and
new and its parent exists, adding the directory. -/
def mkdirOS (fs : DirFS) (d : DirPath) : Option DirFS :=
  if d ≠ [] ∧ (parentDir d = [] ∨ parentDir d ∈ fs) ∧ d ∉ fs then
    some (d :: fs)
  else none

/-- OS model of `rmdir(2)`: succeeds exactly when the directory exists and
has no child, removing it. -/
def rmdirOS (fs : DirFS) (d : DirPath) : Option DirFS :=
  if d ∈ fs ∧ ∀ p ∈ fs, parentDir p ≠ d then some (fs.erase d) else none

/-- `do_mkdir` from the source: 0 and the grown filesystem when the
`mkdir` call succeeds, -1 and an error line otherwise. -/
def do_mkdir (fs : DirFS) (d : DirPath) : Int × DirFS × List ErrLine :=
  match mkdirOS fs d with
  | some fs2 => (0, fs2, [])
  | none => (-1, fs, [ErrLine.sys "mkdir"])

/-- `do_rmdir` from the source: 0 and the shrunk filesystem when the
`rmdir` call succeeds, -1 and an error line otherwise. -/
def do_rmdir (fs : DirFS) (d : DirPath) : Int × DirFS × List ErrLine :=
  match rmdirOS fs d with
  | some fs2 => (0, fs2, [])
  | none => (-1, fs, [ErrLine.sys "rmdir"])

/-- A regular file as `do_cat` sees it through `open`/`read`: the bytes
successfully delivered by `read`, and whether a subsequent `read` call
reports an error (returns a negative count) instead of end-of-file. -/
structure CatFile where
  content : List Nat
  readErr : Bool
  deriving DecidableEq, Repr

/-- The chunks successively returned by `read(fd, buf, 256)` in the loop
of `do_cat`: each call delivers up to 256 bytes until none remain.  The
fuel argument only bounds the recursion; `catChunks` supplies enough. -/
def catReadLoop : Nat → List Nat → List (List Nat)
  | 0, _ => []
  | _ + 1, [] => []
  | fuel + 1, c => c.take 256 :: catReadLoop fuel (c.drop 256)

/-- All chunks read by `do_cat` from a file with the given content. -/
def catChunks (c : List Nat) : List (List Nat) :=
  catReadLoop (c.length + 1) c

/-- `do_cat` from the source: -1 and an error line when `open` fails
(`none` input); otherwise every chunk `read` delivers is written to
standard output, a read error is reported on standard error, and the
return value is 0 in both of the latter cases. -/
def do_cat (file : Option CatFile) : Int × List Nat × List ErrLine :=
  match file with
  | none => (-1, [], [ErrLine.sys "cat"])
  | some f =>
      (0, (catChunks f.content).flatten,
        if f.readErr then [ErrLine.sys "cat"] else [])

/-- The fields of `struct stat` that `do_stat` prints. -/
structure StatInfo where
  size : Nat
  links : Nat
  inode : Nat
  deriving DecidableEq, Repr

/-- `do_stat` from the source: -1 and an error line when the `stat` call
fails (`none`), otherwise 0 and the four printed lines. -/
def do_stat (filename : String) (s : Option StatInfo) :
    Int × List String × List ErrLine :=
  match s with
  | none => (-1, [], [ErrLine.sys "stat"])
  | some i =>
      (0,
       ["File: " ++ filename,
        "Size: " ++ toString i.size ++ " bytes",
        "Links: " ++ toString i.links,
        "Inode: " ++ toString i.inode],
       [])

/-- `do_ls` from the source: -1 and an error line when `opendir` fails
(`none`), otherwise 0 and one output line per entry in the order the OS
delivers them. -/
def do_ls (entries : Option (List String)) : Int × List String × List ErrLine :=
  match entries with
  | none => (-1, [], [ErrLine.sys "ls"])
  | some es => (0, es, [])

/-- OS model of `unlink(2)`: succeeds exactly when the file exists,
removing its entry. -/
def unlinkOS (files : List (String × CatFile)) (f : String) :
    Option (List (String × CatFile)) :=
  if (List.lookup f files).isSome then
    some (files.filter (fun kv => kv.fst != f))
  else none

/-- `do_rm` from the source: 0 and the shrunk file table when the `unlink`
call succeeds, -1 and an error line otherwise. -/
def do_rm (files : List (String × CatFile)) (f : String) :
    Int × List (String × CatFile) × List ErrLine :=
  match unlinkOS files f with
  | some files2 => (0, files2, [])
  | none => (-1, files, [ErrLine.sys "rm"])

/-- The kernel's resolution of a path string into components, for the
directory-tree model: split on `/` and drop empty components. -/
def pathOfString (s : String) : DirPath :=
  (s.splitOn "/").filter (fun c => c != "")

/-- Everything outside the program that its built-ins can observe or
change: the process state of `cd`/`pwd`, the directory tree of
`mkdir`/`rmdir`, the regular files of `cat`/`rm`, the directory listings
of `ls`, and the metadata of `stat`. -/
structure World where
  proc : ProcState
  dirTree : DirFS
  files : List (String × CatFile)
  dirEntries : List (String × List String)
  stats : List (String × StatInfo)

/-- One item written to standard output: a raw byte run (from `write` in
`do_cat`) or a printed line. -/
inductive OutItem where
  | bytes (bs : List Nat)
  | line (s : String)
  deriving DecidableEq, Repr

/-- The observable result of dispatching one line: the world afterwards,
the standard output and standard error produced, and whether the process
exited. -/
structure StepResult where
  world : World
  out : List OutItem
  err : List ErrLine
  exited : Bool

/-- Runs the selected built-in against the world, exactly as the matching
branch of `main`/`execute_command` calls it.  `none` models the undefined
behavior inherited from `do_cd` (empty argument, unresolvable record). -/
def runAction (w : World) (a : Action) : Option StepResult :=
  match a with
  | Action.cd d =>
      (do_cd w.proc (String.mk d)).map
        (fun r => ⟨{ w with proc := r.snd.fst }, [], r.snd.snd, false⟩)
  | Action.exitShell => some ⟨w, [], [], true⟩
  | Action.cat f =>
      let r := do_cat (List.lookup (String.mk f) w.files)
      some ⟨w, [OutItem.bytes r.snd.fst], r.snd.snd, false⟩
  | Action.stat f =>
      let r := do_stat (String.mk f) (List.lookup (String.mk f) w.stats)
      some ⟨w, r.snd.fst.map OutItem.line, r.snd.snd, false⟩
  | Action.mkdir d =>
      let r := do_mkdir w.dirTree (pathOfString (String.mk d))
      some ⟨{ w with dirTree := r.snd.fst }, [], r.snd.snd, false⟩
  | Action.rmdir d =>
      let r := do_rmdir w.dirTree (pathOfString (String.mk d))
      some ⟨{ w with dirTree := r.snd.fst }, [], r.snd.snd, false⟩
  | Action.rm f =>
      let r := do_rm w.files (String.mk f)
      some ⟨{ w with files := r.snd.fst }, [], r.snd.snd, false⟩
  | Action.ls d =>
      let r := do_ls (List.lookup (String.mk d) w.dirEntries)
      some ⟨w, r.snd.fst.map OutItem.line, r.snd.snd, false⟩
  | Action.pwd =>
      let r := do_pwd w.proc
      some ⟨w, r.snd.map OutItem.line, [], false⟩
  | Action.notFound line => some ⟨w, [], [ErrLine.notFound line], false⟩
  | Action.nothing => some ⟨w, [], [], false⟩

/-- One full main-loop iteration: strip, zero the argument buffer,
dispatch, run the selected built-in. -/
def mainStep (w : World) (stale raw : List Char) : Option StepResult :=
  runAction w (mainIteration stale raw)

/-- The trimmed line matches none of the dispatcher's keyword patterns:
every `<key> %s` scan fails and the line equals none of the exact
keywords compared with `strncmp`. -/
def noKeywordMatch (line : List Char) : Prop :=
  scanKeyArg ("cd".data) line = none ∧
  scanKeyArg ("cat".data) line = none ∧
  scanKeyArg ("stat".data) line = none ∧
  scanKeyArg ("mkdir".data) line = none ∧
  scanKeyArg ("rmdir".data) line = none ∧
  scanKeyArg ("rm".data) line = none ∧
  scanKeyArg ("ls".data) line = none ∧
  line ≠ "cd".data ∧ line ≠ "exit".data ∧
  line ≠ "ls".data ∧ line ≠ "pwd".data

/-- Whether the keyword with the given rank in the specification's order
cd, exit, cat, stat, mkdir, rmdir, rm, ls, pwd matches the line, and the
action it then selects.  Written from the specification's description of
each keyword's pattern. -/
def keywordHit (fname0 line : List Char) : Nat → Option Action
  | 0 =>
    match scanKeyArg ("cd".data) line with
    | some t => some (Action.cd t)
    | none => if line = "cd".data then some (Action.cd fname0) else none
  | 1 => if line = "exit".data then some Action.exitShell else none
  | 2 => (scanKeyArg ("cat".data) line).map Action.cat
  | 3 => (scanKeyArg ("stat".data) line).map Action.stat
  | 4 => (scanKeyArg ("mkdir".data) line).map Action.mkdir
  | 5 => (scanKeyArg ("rmdir".data) line).map Action.rmdir
  | 6 => (scanKeyArg ("rm".data) line).map Action.rm
  | 7 =>
    match scanKeyArg ("ls".data) line with
    | some t => some (Action.ls t)
    | none =>
        if line = "ls".data then
          some (Action.ls (if fname0 = [] then ".".data else fname0))
        else none
  | 8 => if line = "pwd".data then some Action.pwd else none
  | _ => none

/-- The specification's dispatcher: first-match over the keyword list in
the order cd, exit, cat, stat, mkdir, rmdir, rm, ls, pwd, falling through
to the not-found error on a non-empty line and to no action on an empty
one. -/
def dispatchSpec (fname0 line : List Char) : Action :=
  match List.findSome? (keywordHit fname0 line) (List.range 9) with
  | some a => a
  | none => if line ≠ [] then Action.notFound line else Action.nothing

/-- The read loop of `do_cat` reassembles exactly the file content, given
enough fuel for the content's length. -/
theorem catReadLoop_flatten (fuel : Nat) :
    ∀ c : List Nat, c.length ≤ fuel → (catReadLoop fuel c).flatten = c := by
  induction fuel with
  | zero =>
      intro c h
      have hc : c = [] := List.length_eq_zero.mp (Nat.le_zero.mp h)
      subst hc
      rfl
  | succ n ih =>
      intro c h
      cases c with
      | nil => rfl
      | cons x xs =>
          have hlen : ((x :: xs).drop 256).length ≤ n := by
            rw [List.length_drop]
            simp only [List.length_cons] at h ⊢
            omega
          show ((x :: xs).take 256 ::
            catReadLoop n ((x :: xs).drop 256)).flatten = x :: xs
          rw [List.flatten_cons, ih _ hlen, List.take_append_drop]

/-- `do_cat` reassembles exactly the file content. -/
theorem catChunks_flatten (c : List Nat) : (catChunks c).flatten = c :=
  catReadLoop_flatten (c.length + 1) c (Nat.le_succ _)

/-- A successful literal match means the key heads the input. -/
theorem matchesLiteral_true_exists {k l : List Char}
    (h : matchesLiteral k l = true) : ∃ s, l = k ++ s := by
  induction k generalizing l with
  | nil => exact ⟨l, rfl⟩
  | cons a as ih =>
      cases l with
      | nil => simp [matchesLiteral] at h
      | cons b bs =>
          simp only [matchesLiteral, Bool.and_eq_true, beq_iff_eq] at h
          obtain ⟨rfl, h2⟩ := h
          obtain ⟨s, rfl⟩ := ih h2
          exact ⟨s, rfl⟩

/-- A key literally matches any input it heads. -/
theorem matchesLiteral_append (k s : List Char) :
    matchesLiteral k (k ++ s) = true := by
  induction k with
  | nil => rfl
  | cons a as ih => simp [matchesLiteral, ih]

/-- A successful `<key> %s` scan means the key heads the line. -/
theorem scanKeyArg_some_head {key line t : List Char}
    (h : scanKeyArg key line = some t) : ∃ s, line = key ++ s := by
  unfold scanKeyArg at h
  by_cases hm : matchesLiteral key line = true
  · exact matchesLiteral_true_exists hm
  · simp [hm] at h

/-- When the `cd %s` scan fails and the line is neither bare `cd` nor
`exit`, the main loop hands the line to `execute_command`. -/
theorem mainDispatch_eq_execute (fname0 line : List Char)
    (hcd : scanKeyArg ("cd".data) line = none)
    (h1 : line ≠ "cd".data) (h2 : line ≠ "exit".data) :
    mainDispatch fname0 line = execute_command fname0 line := by
  unfold mainDispatch
  simp only [hcd, if_neg h1, if_neg h2]

/-- When every pattern of `execute_command` fails on a non-empty line, it
falls through to the not-found error. -/
theorem execute_command_not_found (fname line : List Char)
    (hcat : scanKeyArg ("cat".data) line = none)
    (hstat : scanKeyArg ("stat".data) line = none)
    (hmkdir : scanKeyArg ("mkdir".data) line = none)
    (hrmdir : scanKeyArg ("rmdir".data) line = none)
    (hrm : scanKeyArg ("rm".data) line = none)
    (hls : scanKeyArg ("ls".data) line = none)
    (hbarels : line ≠ "ls".data) (hpwd : line ≠ "pwd".data)
    (hne : line ≠ []) :
    execute_command fname line = Action.notFound line := by
  unfold execute_command
  simp only [hcat, hstat, hmkdir, hrmdir, hrm, hls,
    if_neg hbarels, if_neg hpwd, if_pos hne]

/-- `do_cd` with an empty argument and a resolvable record moves the
working directory to the record's home directory when it exists. -/
theorem do_cd_empty_home (st : ProcState) (h : String)
    (hh : st.home = some h) (hmem : h ∈ st.dirs) :
    do_cd st "" = some (0, { st with cwd := h }, []) := by
  unfold do_cd cdTarget chdirOS
  simp [hh, hmem]

/-- The shell's dispatch agrees everywhere with the specification's
ordered first-match dispatcher. -/
theorem mainDispatch_eq_dispatchSpec (fname0 line : List Char) :
    mainDispatch fname0 line = dispatchSpec fname0 line := by
  have hrange : List.range 9 = [0, 1, 2, 3, 4, 5, 6, 7, 8] := by decide
  unfold mainDispatch execute_command dispatchSpec
  rw [hrange]
  simp only [List.findSome?, keywordHit]
  cases hcd : scanKeyArg ("cd".data) line with
  | some t => rfl
  | none =>
    by_cases h1 : line = "cd".data
    · subst h1; rfl
    · simp only [if_neg h1]
      by_cases h2 : line = "exit".data
      · subst h2; rfl
      · simp only [if_neg h2]
        cases hcat : scanKeyArg ("cat".data) line with
        | some t => rfl
        | none =>
        cases hstat : scanKeyArg ("stat".data) line with
        | some t => rfl
        | none =>
        cases hmk : scanKeyArg ("mkdir".data) line with
        | some t => rfl
        | none =>
        cases hrmd : scanKeyArg ("rmdir".data) line with
        | some t => rfl
        | none =>
        cases hrm : scanKeyArg ("rm".data) line with
        | some t => rfl
        | none =>
        cases hls : scanKeyArg ("ls".data) line with
        | some t => rfl
        | none =>
        by_cases h3 : line = "ls".data
        · subst h3; rfl
        · simp only [if_neg h3]
          by_cases h4 : line = "pwd".data
          · subst h4; rfl
          · simp only [if_neg h4]
            rfl

/-- Every keyword pattern tried before `rmdir %s` starts with a letter
other than `r`, so on a line headed by the rmdir keyword they all fail and
a successful `rmdir %s` scan selects rmdir. -/
theorem execute_command_rmdir_priority (fname s t : List Char)
    (h : scanKeyArg ("rmdir".data) ("rmdir".data ++ s) = some t) :
    execute_command fname ("rmdir".data ++ s) = Action.rmdir t := by
  have hcat : scanKeyArg ("cat".data) ("rmdir".data ++ s) = none := rfl
  have hstat : scanKeyArg ("stat".data) ("rmdir".data ++ s) = none := rfl
  have hmk : scanKeyArg ("mkdir".data) ("rmdir".data ++ s) = none := rfl
  unfold execute_command
  simp only [hcat, hstat, hmk, h]

/-- On a line headed by the rmdir keyword, the main loop's cd and exit
cases also fail, so a successful `rmdir %s` scan makes the whole dispatch
select rmdir. -/
theorem mainDispatch_rmdir_priority (fname0 s t : List Char)
    (h : scanKeyArg ("rmdir".data) ("rmdir".data ++ s) = some t) :
    mainDispatch fname0 ("rmdir".data ++ s) = Action.rmdir t := by
  have hcd : scanKeyArg ("cd".data) ("rmdir".data ++ s) = none := rfl
  have h1 : ("rmdir".data ++ s) ≠ "cd".data := by
    intro hEq
    have hlen := congrArg List.length hEq
    rw [List.length_append] at hlen
    simp only [show ("rmdir".data).length = 5 from rfl,
      show ("cd".data).length = 2 from rfl] at hlen
    omega
  have h2 : ("rmdir".data ++ s) ≠ "exit".data := by
    intro hEq
    have hlen := congrArg List.length hEq
    rw [List.length_append] at hlen
    simp only [show ("rmdir".data).length = 5 from rfl,
      show ("exit".data).length = 4 from rfl] at hlen
    omega
  rw [mainDispatch_eq_execute fname0 _ hcd h1 h2]
  exact execute_command_rmdir_priority fname0 s t h

/-- Lists with different head characters are different. -/
theorem ne_of_head_ne {a b : Char} {l1 l2 : List Char} (h : a ≠ b) :
    (a :: l1) ≠ (b :: l2) := by
  intro hEq
  injection hEq with hc _
  exact h hc

/-- Lists with equal heads but different second characters are
different. -/
theorem ne_of_head2_ne {a b c d : Char} {l1 l2 : List Char} (h : b ≠ d) :
    (a :: (b :: l1)) ≠ (c :: (d :: l2)) := by
  intro hEq
  injection hEq with _ hEq2
  injection hEq2 with hc _
  exact h hc

/-- A `<key> %s` scan of the key followed by optional whitespace and a
nonempty whitespace-free token succeeds with exactly that token: the
format's blank consumes the (possibly empty) whitespace run and `%s`
reads the token. -/
theorem scanKeyArg_append_token (key ws t : List Char)
    (hws0 : ∀ c ∈ ws, isCWhitespace c = true)
    (hne : t ≠ []) (hws : ∀ c ∈ t, isCWhitespace c = false) :
    scanKeyArg key (key ++ ws ++ t) = some t := by
  have htake : ∀ u : List Char, (∀ c ∈ u, isCWhitespace c = false) →
      u.takeWhile (fun c => !isCWhitespace c) = u := by
    intro u
    induction u with
    | nil => intro _; rfl
    | cons c cs ih =>
        intro hu
        rw [List.takeWhile_cons, hu c (List.mem_cons_self c cs)]
        simp only [Bool.not_false, if_true]
        rw [ih (fun d hd => hu d (List.mem_cons_of_mem c hd))]
  have hdropws : ∀ u : List Char, (∀ c ∈ u, isCWhitespace c = true) →
      (u ++ t).dropWhile isCWhitespace = t.dropWhile isCWhitespace := by
    intro u
    induction u with
    | nil => intro _; rfl
    | cons c cs ih =>
        intro hu
        rw [List.cons_append, List.dropWhile_cons,
          hu c (List.mem_cons_self c cs)]
        simp only [if_true]
        exact ih (fun d hd => hu d (List.mem_cons_of_mem c hd))
  have hdropt : t.dropWhile isCWhitespace = t := by
    cases t with
    | nil => rfl
    | cons c cs =>
        rw [List.dropWhile_cons, hws c (List.mem_cons_self c cs)]
        simp
  unfold scanKeyArg
  rw [List.append_assoc, matchesLiteral_append]
  simp only [if_true]
  rw [List.drop_left, hdropws ws hws0, hdropt, htake t hws, if_neg hne]

/-- A `%s` conversion needs a nonempty token, so the bare keyword alone
never matches its own `<key> %s` pattern. -/
theorem scanKeyArg_bare (key : List Char) : scanKeyArg key key = none := by
  have h : matchesLiteral key key = true := by
    have h2 := matchesLiteral_append key []
    rwa [List.append_nil] at h2
  unfold scanKeyArg
  rw [h]
  simp only [if_true]
  rw [List.drop_length]
  rfl

/-- C1 (amended): cd, ls, mkdir, rmdir, rm and stat return 0 exactly when
the underlying OS operation succeeds and -1 when it fails, and cat
returns -1 when `open` fails; but `do_pwd` returns 1 (not 0) on success,
and `do_cat` returns 0 (not -1) whenever `open` succeeded, even when a
read error occurs afterwards. -/
theorem builtin_return_codes :
    (∀ fs d, (do_mkdir fs d).fst = if (mkdirOS fs d).isSome then 0 else -1) ∧
    (∀ fs d, (do_rmdir fs d).fst = if (rmdirOS fs d).isSome then 0 else -1) ∧
    (∀ files f, (do_rm files f).fst =
      if (unlinkOS files f).isSome then 0 else -1) ∧
    (∀ e, (do_ls e).fst = if e.isSome then 0 else -1) ∧
    (∀ fn s, (do_stat fn s).fst = if s.isSome then 0 else -1) ∧
    (∀ st d, (do_cd st d).map Prod.fst =
      (cdTarget st d).map (fun t => if (chdirOS st t).isSome then 0 else -1)) ∧
    (∀ st, (do_pwd st).fst = 1) ∧
    (∀ f, (do_cat (some f)).fst = 0) ∧
    (do_cat none).fst = -1 := by
  refine ⟨?_, ?_, ?_, ?_, ?_, ?_, ?_, ?_, rfl⟩
  · intro fs d; unfold do_mkdir; cases h : mkdirOS fs d <;> simp [h]
  · intro fs d; unfold do_rmdir; cases h : rmdirOS fs d <;> simp [h]
  · intro files f; unfold do_rm; cases h : unlinkOS files f <;> simp [h]
  · intro e; cases e <;> rfl
  · intro fn s; cases s <;> rfl
  · intro st d
    unfold do_cd
    cases h : cdTarget st d with
    | none => rfl
    | some t => cases h2 : chdirOS st t <;> simp [h2]
  · intro st; rfl
  · intro f; rfl

/-- C1 counterexample: at a state where pwd succeeds (it prints the
working directory) it returns 1, not 0; on a file where open succeeded
and a read error then occurred, cat returns 0, not -1. -/
theorem return_code_counterexample :
    (do_pwd ⟨"/", none, []⟩).fst = 1 ∧ ((1 : Int) = 0 → False) ∧
    (do_pwd ⟨"/", none, []⟩).snd = ["/"] ∧
    (do_cat (some ⟨[], true⟩)).fst = 0 ∧ ((0 : Int) = -1 → False) :=
  ⟨rfl, by decide, rfl, rfl, by decide⟩

/-- C2: cat on a file with content `c` writes exactly `c` to standard
output, byte for byte, for every length of `c` — the 256-byte read chunks
reassemble the content across chunk boundaries. -/
theorem cat_outputs_exact_content (c : List Nat) :
    (do_cat (some ⟨c, false⟩)).snd.fst = c := by
  show (catChunks c).flatten = c
  exact catChunks_flatten c

/-- C3 (amended): dispatch is first-match over the keyword list in the
order cd, exit, cat, stat, mkdir, rmdir, rm, ls, pwd — the main loop's
special-casing of cd and exit gives them the top two priorities — and a
line starting with `rmdir` that matches the `rmdir %s` pattern invokes
rmdir, never rm; but bare `rmdir` fails that pattern and falls to rm. -/
theorem dispatch_first_match :
    (∀ fname0 line, mainDispatch fname0 line = dispatchSpec fname0 line) ∧
    (∀ fname0 s t, scanKeyArg ("rmdir".data) ("rmdir".data ++ s) = some t →
      mainDispatch fname0 ("rmdir".data ++ s) = Action.rmdir t) :=
  ⟨mainDispatch_eq_dispatchSpec, mainDispatch_rmdir_priority⟩

/-- C3 witness: the dispatch of `rmdir x` agrees with the ordered
first-match dispatcher and invokes rmdir on `x`. -/
theorem dispatch_first_match_witness :
    mainDispatch [] ("rmdir x".data) = dispatchSpec [] ("rmdir x".data) ∧
    mainDispatch [] ("rmdir x".data) = Action.rmdir ("x".data) :=
  ⟨dispatch_first_match.1 [] ("rmdir x".data),
   dispatch_first_match.2 [] (" x".data) ("x".data) rfl⟩

/-- C3 counterexample: the line `rmdir`, which starts with the keyword
`rmdir`, invokes rm with argument `dir`: the `rmdir %s` pattern needs an
argument token, and the `rm %s` pattern then reads `dir` as its token. -/
theorem bare_rmdir_runs_rm :
    mainDispatch [] ("rmdir".data) = Action.rm ("dir".data) := rfl

/-- C4 (amended): a `<key> %s` command keyword (cd, cat, stat, mkdir,
rmdir, rm, ls) matches whenever the keyword's characters are followed by
optional whitespace and a nonempty whitespace-free token — including when
the token immediately adjoins the keyword, with no whitespace at all —
and dispatch then runs the first matching keyword in order with that
token (for rm, when the earlier `rmdir %s` pattern does not also match
the line).  A `<key> %s` pattern never matches the bare keyword with no
argument, so bare `cat` matches no keyword and is unrecognized input
(bare `rmdir`, in contrast, is captured by the later `rm %s` pattern). -/
theorem keyword_adjacent_token_matches (fname0 ws t : List Char)
    (hws0 : ∀ c ∈ ws, isCWhitespace c = true)
    (hne : t ≠ []) (hws : ∀ c ∈ t, isCWhitespace c = false) :
    (∀ key, scanKeyArg key (key ++ ws ++ t) = some t) ∧
    (∀ key, scanKeyArg key key = none) ∧
    mainDispatch fname0 ("cd".data ++ ws ++ t) = Action.cd t ∧
    mainDispatch fname0 ("cat".data ++ ws ++ t) = Action.cat t ∧
    mainDispatch fname0 ("stat".data ++ ws ++ t) = Action.stat t ∧
    mainDispatch fname0 ("mkdir".data ++ ws ++ t) = Action.mkdir t ∧
    mainDispatch fname0 ("rmdir".data ++ ws ++ t) = Action.rmdir t ∧
    (scanKeyArg ("rmdir".data) ("rm".data ++ ws ++ t) = none →
      mainDispatch fname0 ("rm".data ++ ws ++ t) = Action.rm t) ∧
    mainDispatch fname0 ("ls".data ++ ws ++ t) = Action.ls t ∧
    mainDispatch fname0 ("cat".data) = Action.notFound ("cat".data) := by
  have hscan : ∀ key, scanKeyArg key (key ++ ws ++ t) = some t :=
    fun key => scanKeyArg_append_token key ws t hws0 hne hws
  refine ⟨hscan, scanKeyArg_bare, ?_, ?_, ?_, ?_, ?_, ?_, ?_, rfl⟩
  · unfold mainDispatch
    rw [hscan ("cd".data)]
  · have hcd : scanKeyArg ("cd".data) ("cat".data ++ ws ++ t) = none := rfl
    have h1 : ("cat".data ++ ws ++ t) ≠ "cd".data := ne_of_head2_ne (by decide)
    have h2 : ("cat".data ++ ws ++ t) ≠ "exit".data :=
      ne_of_head_ne (by decide)
    rw [mainDispatch_eq_execute fname0 _ hcd h1 h2]
    unfold execute_command
    rw [hscan ("cat".data)]
  · have hcd : scanKeyArg ("cd".data) ("stat".data ++ ws ++ t) = none := rfl
    have hcat : scanKeyArg ("cat".data) ("stat".data ++ ws ++ t) = none := rfl
    have h1 : ("stat".data ++ ws ++ t) ≠ "cd".data := ne_of_head_ne (by decide)
    have h2 : ("stat".data ++ ws ++ t) ≠ "exit".data :=
      ne_of_head_ne (by decide)
    rw [mainDispatch_eq_execute fname0 _ hcd h1 h2]
    unfold execute_command
    simp only [hcat, hscan ("stat".data)]
  · have hcd : scanKeyArg ("cd".data) ("mkdir".data ++ ws ++ t) = none := rfl
    have hcat : scanKeyArg ("cat".data) ("mkdir".data ++ ws ++ t) = none := rfl
    have hstat : scanKeyArg ("stat".data) ("mkdir".data ++ ws ++ t) = none :=
      rfl
    have h1 : ("mkdir".data ++ ws ++ t) ≠ "cd".data :=
      ne_of_head_ne (by decide)
    have h2 : ("mkdir".data ++ ws ++ t) ≠ "exit".data :=
      ne_of_head_ne (by decide)
    rw [mainDispatch_eq_execute fname0 _ hcd h1 h2]
    unfold execute_command
    simp only [hcat, hstat, hscan ("mkdir".data)]
  · exact mainDispatch_rmdir_priority fname0 (ws ++ t) t
      (hscan ("rmdir".data))
  · intro hrmd
    have hcd : scanKeyArg ("cd".data) ("rm".data ++ ws ++ t) = none := rfl
    have hcat : scanKeyArg ("cat".data) ("rm".data ++ ws ++ t) = none := rfl
    have hstat : scanKeyArg ("stat".data) ("rm".data ++ ws ++ t) = none := rfl
    have hmk : scanKeyArg ("mkdir".data) ("rm".data ++ ws ++ t) = none := rfl
    have h1 : ("rm".data ++ ws ++ t) ≠ "cd".data := ne_of_head_ne (by decide)
    have h2 : ("rm".data ++ ws ++ t) ≠ "exit".data :=
      ne_of_head_ne (by decide)
    rw [mainDispatch_eq_execute fname0 _ hcd h1 h2]
    unfold execute_command
    simp only [hcat, hstat, hmk, hrmd, hscan ("rm".data)]
  · have hcd : scanKeyArg ("cd".data) ("ls".data ++ ws ++ t) = none := rfl
    have hcat : scanKeyArg ("cat".data) ("ls".data ++ ws ++ t) = none := rfl
    have hstat : scanKeyArg ("stat".data) ("ls".data ++ ws ++ t) = none := rfl
    have hmk : scanKeyArg ("mkdir".data) ("ls".data ++ ws ++ t) = none := rfl
    have hrmd : scanKeyArg ("rmdir".data) ("ls".data ++ ws ++ t) = none := rfl
    have hrm : scanKeyArg ("rm".data) ("ls".data ++ ws ++ t) = none := rfl
    have h1 : ("ls".data ++ ws ++ t) ≠ "cd".data := ne_of_head_ne (by decide)
    have h2 : ("ls".data ++ ws ++ t) ≠ "exit".data :=
      ne_of_head_ne (by decide)
    rw [mainDispatch_eq_execute fname0 _ hcd h1 h2]
    unfold execute_command
    simp only [hcat, hstat, hmk, hrmd, hrm, hscan ("ls".data)]

/-- C4 witness: `cat` directly followed by the token `x` invokes cat on
`x`, likewise `rmdir` directly followed by `x` invokes rmdir on `x`,
`rm f` with a separating space invokes rm on `f`, and bare `cat` is
unrecognized. -/
theorem keyword_adjacent_token_matches_witness :
    mainDispatch [] ("cat".data ++ [] ++ "x".data) = Action.cat ("x".data) ∧
    mainDispatch [] ("rmdir".data ++ [] ++ "x".data) =
      Action.rmdir ("x".data) ∧
    mainDispatch [] ("rm".data ++ " ".data ++ "f".data) =
      Action.rm ("f".data) ∧
    mainDispatch [] ("cat".data) = Action.notFound ("cat".data) := by
  have h1 := keyword_adjacent_token_matches [] [] ("x".data)
    (by decide) (by decide) (by decide)
  have h2 := keyword_adjacent_token_matches [] (" ".data) ("f".data)
    (by decide) (by decide) (by decide)
  exact ⟨h1.2.2.2.1, h1.2.2.2.2.2.2.1,
    h2.2.2.2.2.2.2.2.1 (by decide), h1.2.2.2.2.2.2.2.2.2⟩

/-- C4 counterexample: `catx` is not unrecognized input — it invokes cat
on the file `x`; likewise `cdfoo` invokes cd on `foo`. -/
theorem keyword_adjacency_counterexample :
    mainDispatch [] ("catx".data) = Action.cat ("x".data) ∧
    mainDispatch [] ("cdfoo".data) = Action.cd ("foo".data) :=
  ⟨rfl, rfl⟩

/-- C5: a trimmed non-empty line matching no keyword produces exactly the
single standard-error line `myshell: <line>: No such file or directory`,
no standard output, no exit, and an unchanged world. -/
theorem not_found_line_effects (w : World) (fname0 line : List Char)
    (hne : line ≠ []) (hnm : noKeywordMatch line) :
    runAction w (mainDispatch fname0 line) =
      some ⟨w, [], [ErrLine.notFound line], false⟩ ∧
    ∀ os, renderErr os (ErrLine.notFound line) =
      "myshell: " ++ String.mk line ++ ": No such file or directory" := by
  obtain ⟨hcd, hcat, hstat, hmkdir, hrmdir, hrm, hls, h1, h2, h3, h4⟩ := hnm
  rw [mainDispatch_eq_execute fname0 line hcd h1 h2,
    execute_command_not_found fname0 line hcat hstat hmkdir hrmdir hrm hls
      h3 h4 hne]
  exact ⟨rfl, fun _ => rfl⟩

/-- C5 witness: the line `foobar` produces exactly the not-found error
line and leaves a concrete world unchanged. -/
theorem not_found_line_effects_witness :
    runAction ⟨⟨"/", some "/root", ["/"]⟩, [], [], [], []⟩
        (mainDispatch [] ("foobar".data)) =
      some ⟨⟨⟨"/", some "/root", ["/"]⟩, [], [], [], []⟩, [],
        [ErrLine.notFound ("foobar".data)], false⟩ ∧
    ∀ os, renderErr os (ErrLine.notFound ("foobar".data)) =
      "myshell: " ++ String.mk ("foobar".data) ++
        ": No such file or directory" :=
  not_found_line_effects ⟨⟨"/", some "/root", ["/"]⟩, [], [], [], []⟩ []
    ("foobar".data) (by decide)
    ⟨rfl, rfl, rfl, rfl, rfl, rfl, rfl, by decide, by decide, by decide,
      by decide⟩

/-- C6: when mkdir succeeds on a directory of a well-formed filesystem —
so the directory did not exist before — the following rmdir succeeds and
restores exactly the previous set of existing entries. -/
theorem mkdir_rmdir_roundtrip (fs fs2 : DirFS) (d : DirPath)
    (hwf : wfFS fs) (h : mkdirOS fs d = some fs2) :
    do_mkdir fs d = (0, fs2, []) ∧ do_rmdir fs2 d = (0, fs, []) := by
  unfold mkdirOS at h
  by_cases hc : d ≠ [] ∧ (parentDir d = [] ∨ parentDir d ∈ fs) ∧ d ∉ fs
  case neg => rw [if_neg hc] at h; exact absurd h (by simp)
  case pos =>
  rw [if_pos hc] at h
  obtain ⟨hdne, hpar, hnotin⟩ := hc
  have hfs2 : fs2 = d :: fs := by injection h with h2; exact h2.symm
  subst hfs2
  constructor
  · unfold do_mkdir mkdirOS
    rw [if_pos ⟨hdne, hpar, hnotin⟩]
  · unfold do_rmdir rmdirOS
    have hcond : d ∈ d :: fs ∧ ∀ p ∈ d :: fs, parentDir p ≠ d := by
      refine ⟨List.mem_cons_self d fs, ?_⟩
      intro p hp hpd
      rcases List.mem_cons.mp hp with rfl | hpfs
      · have hlen := congrArg List.length hpd
        unfold parentDir at hlen
        rw [List.length_dropLast] at hlen
        have hdpos : 0 < p.length := List.length_pos.mpr hdne
        omega
      · obtain ⟨hpne, hppar⟩ := hwf p hpfs
        rcases hppar with hroot | hmem
        · rw [hpd] at hroot; exact hdne hroot
        · rw [hpd] at hmem; exact hnotin hmem
    rw [if_pos hcond, List.erase_cons_head]

/-- C6 witness: creating then removing the directory `a` in the empty
filesystem restores the empty filesystem. -/
theorem mkdir_rmdir_roundtrip_witness :
    do_mkdir ([] : DirFS) ["a"] = (0, [["a"]], []) ∧
    do_rmdir ([["a"]] : DirFS) ["a"] = (0, [], []) :=
  mkdir_rmdir_roundtrip [] [["a"]] ["a"]
    (fun p hp => absurd hp (List.not_mem_nil p)) (by decide)

/-- C7 (amended): with a resolvable password record whose home directory
exists, `cd` with no argument moves the working directory to the home
directory and `pwd` immediately afterwards prints that path. -/
theorem cd_no_arg_goes_home (st : ProcState) (h : String)
    (hh : st.home = some h) (hmem : h ∈ st.dirs) :
    do_cd st "" = some (0, { st with cwd := h }, []) ∧
    (do_pwd { st with cwd := h }).snd = [h] :=
  ⟨do_cd_empty_home st h hh hmem, rfl⟩

/-- C7 witness: from `/`, `cd` with no argument enters the existing home
directory `/home/u` and `pwd` then prints `/home/u`. -/
theorem cd_no_arg_goes_home_witness :
    do_cd ⟨"/", some "/home/u", ["/", "/home/u"]⟩ "" =
      some (0, ⟨"/home/u", some "/home/u", ["/", "/home/u"]⟩, []) ∧
    (do_pwd ⟨"/home/u", some "/home/u", ["/", "/home/u"]⟩).snd =
      ["/home/u"] :=
  cd_no_arg_goes_home ⟨"/", some "/home/u", ["/", "/home/u"]⟩ "/home/u"
    rfl (by decide)

/-- C7 counterexample: with a resolvable record whose home directory does
not exist, `cd` with no argument fails, the working directory stays `/`,
and `pwd` afterwards prints `/`, not the home directory. -/
theorem cd_home_missing_counterexample :
    do_cd ⟨"/", some "/home/u", ["/"]⟩ "" =
      some (-1, ⟨"/", some "/home/u", ["/"]⟩, [ErrLine.sys "cd"]) ∧
    (do_pwd ⟨"/", some "/home/u", ["/"]⟩).snd = ["/"] ∧
    ("/" : String) ≠ "/home/u" :=
  ⟨rfl, rfl, by decide⟩

/-- C8: a line that is empty after stripping trailing whitespace performs
no built-in, prints nothing to standard output or standard error, does
not exit, and leaves the world unchanged. -/
theorem empty_line_no_effects (w : World) (stale raw : List Char)
    (h : stripModel raw = []) :
    mainStep w stale raw = some ⟨w, [], [], false⟩ := by
  unfold mainStep mainIteration
  rw [h]
  rfl

/-- C8 witness: a line of two spaces strips to empty and has no effect on
a concrete world. -/
theorem empty_line_no_effects_witness :
    mainStep ⟨⟨"/", some "/root", ["/"]⟩, [], [], [], []⟩ ("stale".data)
        ("  ".data) =
      some ⟨⟨⟨"/", some "/root", ["/"]⟩, [], [], [], []⟩, [], [], false⟩ :=
  empty_line_no_effects ⟨⟨"/", some "/root", ["/"]⟩, [], [], [], []⟩
    ("stale".data) ("  ".data) (by decide)

/-- C9 (refuted — bug in the code): on a line consisting entirely of
whitespace, and on the empty string, the strip loop's scan reaches index
-1, a read outside the bounds [0, length-1] of the string. -/
theorem strip_reads_out_of_bounds :
    stripReads (" ".data) = [0, -1] ∧ stripReads [] = [-1] ∧
    ¬ (0 : Int) ≤ -1 :=
  ⟨by decide, by decide, by decide⟩

/-- C10: the filename buffer is zeroed at the start of every iteration,
so whatever it held before, bare `ls` lists `.` and bare `cd` passes the
empty argument to `do_cd`, which then targets the home directory. -/
theorem filename_buffer_zeroed (stale : List Char) (st : ProcState)
    (h : String) (hh : st.home = some h) (hmem : h ∈ st.dirs) :
    mainIteration stale ("ls".data) = Action.ls (".".data) ∧
    mainIteration stale ("cd".data) = Action.cd [] ∧
    do_cd st "" = some (0, { st with cwd := h }, []) :=
  ⟨rfl, rfl, do_cd_empty_home st h hh hmem⟩

/-- C10 witness: with the stale buffer content `previous`, bare `ls`
still lists `.` and bare `cd` still targets the home directory. -/
theorem filename_buffer_zeroed_witness :
    mainIteration ("previous".data) ("ls".data) = Action.ls (".".data) ∧
    mainIteration ("previous".data) ("cd".data) = Action.cd [] ∧
    do_cd ⟨"/tmp", some "/home/v", ["/tmp", "/home/v"]⟩ "" =
      some (0, ⟨"/home/v", some "/home/v", ["/tmp", "/home/v"]⟩, []) :=
  filename_buffer_zeroed ("previous".data)
    ⟨"/tmp", some "/home/v", ["/tmp", "/home/v"]⟩ "/home/v" rfl (by decide)

end MyShell
